import Mathlib

/-!
Verification of the booking controller (`source/controllers/bookings.ts`).

The controller is shallowly embedded: calendar dates are integers counting
days (JavaScript `Date` comparisons compare timestamps, and
`setDate(getDate() + n)` adds `n` days, so all date arithmetic in the source
is translation-invariant day arithmetic); the Prisma store is a list of
booking records together with the next auto-increment identifier; the HTTP
responses become explicit result values carrying either the persisted record
or the rejection reason string.
-/

namespace BookingsTs

/-- A persisted booking row: the `Booking` interface of the source plus the
identifier that the store assigns on insertion. -/
structure Booking where
  id : Nat
  guestName : String
  unitID : String
  checkInDate : Int
  numberOfNights : Int
deriving DecidableEq, Repr

/-- The request body of `createBooking` (the `Booking` interface). -/
structure BookingRequest where
  guestName : String
  unitID : String
  checkInDate : Int
  numberOfNights : Int
deriving DecidableEq, Repr

/-- The request body of `extendBooking` (the `ExtendedBooking` interface). -/
structure ExtendRequest where
  guestName : String
  unitID : String
  numberOfNights : Int
deriving DecidableEq, Repr

/-- The Prisma store: the booking table and the next auto-increment id. -/
structure Store where
  bookings : List Booking
  nextId : Nat
deriving DecidableEq, Repr

/-- `getCheckoutDate`: check-in plus the number of nights, in days. -/
def getCheckoutDate (checkInDate numberOfNights : Int) : Int :=
  checkInDate + numberOfNights

/-- `getAllBookingsOnUnit`: `prisma.booking.findMany` filtered on `unitID`. -/
def getAllBookingsOnUnit (s : Store) (unitID : String) : List Booking :=
  s.bookings.filter (fun b => b.unitID == unitID)

/-- The per-booking conflict test that the loop body of
`isDateRangeAvailable` performs: candidate start inside the existing
interval, or candidate end inside it, or candidate containing it. -/
def overlapsExisting (checkInDate newCheckOutDate : Int) (booking : Booking) : Bool :=
  let existingCheckInDate := booking.checkInDate
  let existingCheckOutDate := getCheckoutDate existingCheckInDate booking.numberOfNights
  (decide (checkInDate ≥ existingCheckInDate) && decide (checkInDate < existingCheckOutDate)) ||
  (decide (newCheckOutDate > existingCheckInDate) && decide (newCheckOutDate ≤ existingCheckOutDate)) ||
  (decide (checkInDate ≤ existingCheckInDate) && decide (newCheckOutDate ≥ existingCheckOutDate))

/-- `isDateRangeAvailable`: false as soon as one existing booking on the
unit satisfies the three-disjunct conflict test, true otherwise. -/
def isDateRangeAvailable (s : Store) (checkInDate numberOfNights : Int) (unitID : String) : Bool :=
  let newCheckOutDate := getCheckoutDate checkInDate numberOfNights
  !((getAllBookingsOnUnit s unitID).any (fun booking =>
      overlapsExisting checkInDate newCheckOutDate booking))

/-- The `bookingOutcome` type of the source. -/
structure BookingOutcome where
  result : Bool
  reason : String
deriving DecidableEq, Repr

/-- `isBookingPossible`: the three checks, in source order. -/
def isBookingPossible (s : Store) (booking : BookingRequest) : BookingOutcome :=
  let sameGuestSameUnit := s.bookings.filter (fun b =>
    b.guestName == booking.guestName && b.unitID == booking.unitID)
  if sameGuestSameUnit.length > 0 then
    ⟨false, "The given guest name cannot book the same unit multiple times"⟩
  else
    let sameGuestAlreadyBooked := s.bookings.filter (fun b =>
      b.guestName == booking.guestName)
    if sameGuestAlreadyBooked.length > 0 then
      ⟨false, "The same guest cannot be in multiple units at the same time"⟩
    else
      let allBookingsForUnit := getAllBookingsOnUnit s booking.unitID
      if allBookingsForUnit.length > 0 then
        if !(isDateRangeAvailable s booking.checkInDate booking.numberOfNights booking.unitID) then
          ⟨false, "For the given check-in date, the unit is already occupied"⟩
        else
          ⟨true, "OK"⟩
      else
        ⟨true, "OK"⟩

/-- Outcome of a `createBooking` request: HTTP 400 with the reason, or
HTTP 200 with the persisted record. -/
inductive CreateResult where
  | rejected (reason : String)
  | created (booking : Booking)
deriving DecidableEq, Repr

/-- `createBooking`: evaluate `isBookingPossible`; on failure answer the
reason and leave the store alone, on success insert the new row (the store
assigns `nextId`) and answer the stored record. -/
def createBooking (s : Store) (req : BookingRequest) : CreateResult × Store :=
  let outcome := isBookingPossible s req
  if !outcome.result then
    (CreateResult.rejected outcome.reason, s)
  else
    let newBooking : Booking :=
      ⟨s.nextId, req.guestName, req.unitID, req.checkInDate, req.numberOfNights⟩
    (CreateResult.created newBooking, ⟨s.bookings ++ [newBooking], s.nextId + 1⟩)

/-- Outcome of an `extendBooking` request. -/
inductive ExtendResult where
  | rejected (reason : String)
  | updated (booking : Booking)
deriving DecidableEq, Repr

/-- The record update performed by `prisma.booking.update`: the row whose
identifier matches gets `numberOfNights` increased; `id` is the primary
key, so on a well-formed table exactly one row matches. -/
def updateNights (bookings : List Booking) (targetId : Nat) (additionalNights : Int) :
    List Booking :=
  bookings.map (fun b =>
    if b.id == targetId then { b with numberOfNights := b.numberOfNights + additionalNights }
    else b)

/-- `extendBooking`: find the guest's booking on the unit (`findFirst`),
reject if absent; otherwise test the candidate interval that starts at the
current checkout date against the unit's bookings, reject if occupied;
otherwise persist the incremented night count. -/
def extendBooking (s : Store) (req : ExtendRequest) : ExtendResult × Store :=
  match s.bookings.find? (fun b =>
      b.guestName == req.guestName && b.unitID == req.unitID) with
  | none => (ExtendResult.rejected "No active bookings found for this guest", s)
  | some hasActiveBooking =>
    let extendedCheckInDate :=
      getCheckoutDate hasActiveBooking.checkInDate hasActiveBooking.numberOfNights
    if !(isDateRangeAvailable s extendedCheckInDate req.numberOfNights req.unitID) then
      (ExtendResult.rejected
        "extend booking is not possible, this unit is already reserved by other customer", s)
    else
      (ExtendResult.updated
        { hasActiveBooking with
            numberOfNights := hasActiveBooking.numberOfNights + req.numberOfNights },
       ⟨updateNights s.bookings hasActiveBooking.id req.numberOfNights, s.nextId⟩)

/-- Modelled from the spec: the single half-open overlap test
`aStart < bEnd AND bStart < aEnd` of section 4.1, where each end is the
start plus the nights count. The source has no such function; this is the
spec side of the refinement claim about `isDateRangeAvailable`. -/
def intervalsOverlap (aStart aNights bStart bNights : Int) : Bool :=
  decide (aStart < bStart + bNights) && decide (bStart < aStart + aNights)

/-- The overlap relation on stored bookings as the spec states it: the two
half-open `[checkIn, checkIn + nights)` intervals intersect. -/
def bookingOverlap (a b : Booking) : Prop :=
  a.checkInDate < b.checkInDate + b.numberOfNights ∧
  b.checkInDate < a.checkInDate + a.numberOfNights

instance (a b : Booking) : Decidable (bookingOverlap a b) := by
  unfold bookingOverlap; infer_instance

/-- Compatibility of two distinct stored rows: distinct identifiers,
distinct guests, and no date overlap when they are on the same unit. The
store invariants of the spec are the two last components. -/
def BookingCompat (a b : Booking) : Prop :=
  a.id ≠ b.id ∧ a.guestName ≠ b.guestName ∧ (a.unitID = b.unitID → ¬bookingOverlap a b)

/-- The inductive store invariant: positive night counts, identifiers below
the auto-increment counter, and pairwise compatibility of the rows. -/
structure Inv (s : Store) : Prop where
  nightsPos : ∀ b ∈ s.bookings, 1 ≤ b.numberOfNights
  idLt : ∀ b ∈ s.bookings, b.id < s.nextId
  compat : s.bookings.Pairwise BookingCompat

/-- One inbound request: either of the two write operations. -/
inductive Req where
  | create (r : BookingRequest)
  | extend (r : ExtendRequest)
deriving DecidableEq, Repr

/-- The store after serving one request (the response is discarded). -/
def applyReq (s : Store) (q : Req) : Store :=
  match q with
  | .create r => (createBooking s r).snd
  | .extend r => (extendBooking s r).snd

/-- A request whose nights count is at least 1. -/
def reqNightsOk : Req → Bool
  | .create r => decide (1 ≤ r.numberOfNights)
  | .extend r => decide (1 ≤ r.numberOfNights)

/-- The store before any request: empty table, counter at 0. -/
def emptyStore : Store := ⟨[], 0⟩

/-! ### Helper lemmas -/

/-- Core arithmetic fact: for positive night counts the three-disjunct
conflict test is the half-open intersection test. -/
lemma overlapsExisting_true_iff (c n : Int) (b : Booking)
    (hn : 1 ≤ n) (hb : 1 ≤ b.numberOfNights) :
    overlapsExisting c (getCheckoutDate c n) b = true ↔
      (c < b.checkInDate + b.numberOfNights ∧ b.checkInDate < c + n) := by
  simp only [overlapsExisting, getCheckoutDate, Bool.or_eq_true, Bool.and_eq_true,
    decide_eq_true_eq]
  omega

lemma overlapsExisting_false_iff (c n : Int) (b : Booking)
    (hn : 1 ≤ n) (hb : 1 ≤ b.numberOfNights) :
    overlapsExisting c (getCheckoutDate c n) b = false ↔
      ¬(c < b.checkInDate + b.numberOfNights ∧ b.checkInDate < c + n) := by
  rw [← Bool.not_eq_true, not_iff_not]
  exact overlapsExisting_true_iff c n b hn hb

/-- A booking never conflicts with the candidate interval that starts
exactly at its own checkout date. -/
lemma overlapsExisting_self_false (b : Booking) (a : Int)
    (hb : 1 ≤ b.numberOfNights) (ha : 1 ≤ a) :
    overlapsExisting (getCheckoutDate b.checkInDate b.numberOfNights)
      (getCheckoutDate (getCheckoutDate b.checkInDate b.numberOfNights) a) b = false := by
  simp only [overlapsExisting, getCheckoutDate, Bool.or_eq_false_iff, Bool.and_eq_false_iff,
    decide_eq_false_iff_not, not_lt, not_le]
  omega

lemma isDateRangeAvailable_true_iff (s : Store) (c n : Int) (u : String) :
    isDateRangeAvailable s c n u = true ↔
      ∀ b ∈ getAllBookingsOnUnit s u,
        overlapsExisting c (getCheckoutDate c n) b = false := by
  simp only [isDateRangeAvailable, Bool.not_eq_true', List.any_eq_false,
    Bool.not_eq_true]

lemma isDateRangeAvailable_false_iff (s : Store) (c n : Int) (u : String) :
    isDateRangeAvailable s c n u = false ↔
      ∃ b ∈ getAllBookingsOnUnit s u,
        overlapsExisting c (getCheckoutDate c n) b = true := by
  simp only [isDateRangeAvailable, Bool.not_eq_false', List.any_eq_true]

lemma mem_getAllBookingsOnUnit (s : Store) (u : String) (b : Booking) :
    b ∈ getAllBookingsOnUnit s u ↔ b ∈ s.bookings ∧ b.unitID = u := by
  simp [getAllBookingsOnUnit]

/-! ### Claim theorems -/

/-- C1: for nights counts at least 1 on both sides, the three-disjunct date
comparison of `isDateRangeAvailable` (candidate start inside existing,
candidate end inside existing, candidate contains existing) agrees with the
single half-open test `aStart < bEnd AND bStart < aEnd`, the ends being the
starts plus the nights counts. -/
theorem overlap_disjuncts_eq_half_open (c n : Int) (b : Booking)
    (hn : 1 ≤ n) (hb : 1 ≤ b.numberOfNights) :
    overlapsExisting c (getCheckoutDate c n) b =
      intervalsOverlap c n b.checkInDate b.numberOfNights := by
  rw [Bool.eq_iff_iff, overlapsExisting_true_iff c n b hn hb]
  simp only [intervalsOverlap, Bool.and_eq_true, decide_eq_true_eq]

theorem overlap_disjuncts_eq_half_open_witness :
    (1 : Int) ≤ 2 ∧ (1 : Int) ≤ (Booking.mk 0 "g" "u" 1 3).numberOfNights ∧
      overlapsExisting 0 (getCheckoutDate 0 2) (Booking.mk 0 "g" "u" 1 3) =
        intervalsOverlap 0 2 1 3 :=
  ⟨by decide, by decide,
    overlap_disjuncts_eq_half_open 0 2 (Booking.mk 0 "g" "u" 1 3) (by decide) (by decide)⟩

/-- C5: with unit U occupied from day 60 (2024-03-01) for 5 nights, a
booking by another guest starting day 65 (2024-03-06, exactly adjacent) for
3 nights is created, while one starting day 64 (2024-03-05) for 1 night is
rejected as occupied. Days count from 2024-01-01 = day 0, so 2024-03-01 is
day 60 in the leap year 2024. -/
theorem adjacency_example :
    (createBooking ⟨[⟨0, "Alice", "U", 60, 5⟩], 1⟩ ⟨"Bob", "U", 65, 3⟩).fst =
        CreateResult.created ⟨1, "Bob", "U", 65, 3⟩ ∧
    (createBooking ⟨[⟨0, "Alice", "U", 60, 5⟩], 1⟩ ⟨"Bob", "U", 64, 1⟩).fst =
        CreateResult.rejected "For the given check-in date, the unit is already occupied" :=
  ⟨rfl, rfl⟩

/-- C9: the code performs no validation of `numberOfNights`; on an empty
store a request with the non-positive nights count 0 is answered as a
successful booking and the record is persisted, instead of failing with a
system error as the error-handling design requires. -/
theorem nonpositive_nights_silently_persisted :
    (createBooking ⟨[], 0⟩ ⟨"g", "u", 0, 0⟩).fst =
        CreateResult.created ⟨0, "g", "u", 0, 0⟩ ∧
    (createBooking ⟨[], 0⟩ ⟨"g", "u", 0, 0⟩).snd.bookings = [⟨0, "g", "u", 0, 0⟩] :=
  ⟨rfl, rfl⟩

/-- C10: the comparison set of the extension availability check does contain
the reservation being extended (no exclusion by identifier happens), yet
the three-disjunct test of the candidate interval, which starts exactly at
that reservation's checkout date, against the reservation itself is false
whenever its nights count and the additional nights are at least 1, so the
self-comparison never causes a rejection. -/
theorem extend_self_comparison_never_rejects (s : Store) (req : ExtendRequest) (r : Booking)
    (hfind : s.bookings.find? (fun b =>
        b.guestName == req.guestName && b.unitID == req.unitID) = some r)
    (hr : 1 ≤ r.numberOfNights) (ha : 1 ≤ req.numberOfNights) :
    r ∈ getAllBookingsOnUnit s req.unitID ∧
    overlapsExisting (getCheckoutDate r.checkInDate r.numberOfNights)
      (getCheckoutDate (getCheckoutDate r.checkInDate r.numberOfNights) req.numberOfNights)
      r = false := by
  constructor
  · rw [mem_getAllBookingsOnUnit]
    refine ⟨List.mem_of_find?_eq_some hfind, ?_⟩
    have hp := List.find?_some hfind
    simp only [Bool.and_eq_true, beq_iff_eq] at hp
    exact hp.2
  · exact overlapsExisting_self_false r req.numberOfNights hr ha

theorem extend_self_comparison_never_rejects_witness :
    (Store.mk [Booking.mk 0 "g" "u" 0 2] 1).bookings.find? (fun b =>
        b.guestName == "g" && b.unitID == "u") = some (Booking.mk 0 "g" "u" 0 2) ∧
    (1 : Int) ≤ (Booking.mk 0 "g" "u" 0 2).numberOfNights ∧ (1 : Int) ≤ 3 ∧
    (Booking.mk 0 "g" "u" 0 2 ∈
        getAllBookingsOnUnit (Store.mk [Booking.mk 0 "g" "u" 0 2] 1) "u" ∧
      overlapsExisting
        (getCheckoutDate (Booking.mk 0 "g" "u" 0 2).checkInDate
          (Booking.mk 0 "g" "u" 0 2).numberOfNights)
        (getCheckoutDate
          (getCheckoutDate (Booking.mk 0 "g" "u" 0 2).checkInDate
            (Booking.mk 0 "g" "u" 0 2).numberOfNights) 3)
        (Booking.mk 0 "g" "u" 0 2) = false) :=
  ⟨rfl, by decide, by decide,
    extend_self_comparison_never_rejects (Store.mk [Booking.mk 0 "g" "u" 0 2] 1)
      (ExtendRequest.mk "g" "u" 3) (Booking.mk 0 "g" "u" 0 2) rfl (by decide) (by decide)⟩

/-- C3: whenever some stored booking has both the request's guest and the
request's unit, `createBooking` answers the same-unit-multiple-times
rejection and leaves the store unchanged, whatever the dates are and even
though the multiple-units condition also holds; check 1 runs first. -/
theorem create_duplicate_guest_unit_rejected (s : Store) (req : BookingRequest) (b : Booking)
    (hb : b ∈ s.bookings) (hg : b.guestName = req.guestName) (hu : b.unitID = req.unitID) :
    createBooking s req =
      (CreateResult.rejected "The given guest name cannot book the same unit multiple times",
        s) := by
  have hmem : b ∈ s.bookings.filter (fun x =>
      x.guestName == req.guestName && x.unitID == req.unitID) := by
    simp [List.mem_filter, hb, hg, hu]
  have hlen : 0 < (s.bookings.filter (fun x =>
      x.guestName == req.guestName && x.unitID == req.unitID)).length :=
    List.length_pos_of_mem hmem
  have houtcome : isBookingPossible s req =
      ⟨false, "The given guest name cannot book the same unit multiple times"⟩ := by
    simp only [isBookingPossible, gt_iff_lt, hlen, if_true]
  simp [createBooking, houtcome]

theorem create_duplicate_guest_unit_rejected_witness :
    Booking.mk 0 "g" "u" 5 2 ∈ (Store.mk [Booking.mk 0 "g" "u" 5 2] 1).bookings ∧
    createBooking (Store.mk [Booking.mk 0 "g" "u" 5 2] 1) (BookingRequest.mk "g" "u" 9 1) =
      (CreateResult.rejected "The given guest name cannot book the same unit multiple times",
        Store.mk [Booking.mk 0 "g" "u" 5 2] 1) :=
  ⟨by decide,
    create_duplicate_guest_unit_rejected (Store.mk [Booking.mk 0 "g" "u" 5 2] 1)
      (BookingRequest.mk "g" "u" 9 1) (Booking.mk 0 "g" "u" 5 2) (by decide) rfl rfl⟩

/-- C4: whenever the request's guest has a stored booking but none of the
guest's bookings is on the request's unit, `createBooking` answers the
multiple-units rejection and leaves the store unchanged, regardless of
dates. -/
theorem create_multi_unit_guest_rejected (s : Store) (req : BookingRequest) (b : Booking)
    (hb : b ∈ s.bookings) (hg : b.guestName = req.guestName)
    (hnone : ∀ a ∈ s.bookings, a.guestName = req.guestName → a.unitID ≠ req.unitID) :
    createBooking s req =
      (CreateResult.rejected "The same guest cannot be in multiple units at the same time",
        s) := by
  have hfil1 : s.bookings.filter (fun x =>
      x.guestName == req.guestName && x.unitID == req.unitID) = [] := by
    rw [List.filter_eq_nil_iff]
    intro a ha
    simp only [Bool.and_eq_true, beq_iff_eq, not_and]
    exact fun h1 => hnone a ha h1
  have hmem : b ∈ s.bookings.filter (fun x => x.guestName == req.guestName) := by
    simp [List.mem_filter, hb, hg]
  have hlen : 0 < (s.bookings.filter (fun x => x.guestName == req.guestName)).length :=
    List.length_pos_of_mem hmem
  have houtcome : isBookingPossible s req =
      ⟨false, "The same guest cannot be in multiple units at the same time"⟩ := by
    simp only [isBookingPossible, hfil1, gt_iff_lt, List.length_nil, Nat.lt_irrefl,
      if_false, hlen, if_true]
  simp [createBooking, houtcome]

theorem create_multi_unit_guest_rejected_witness :
    Booking.mk 0 "g" "u" 0 2 ∈ (Store.mk [Booking.mk 0 "g" "u" 0 2] 1).bookings ∧
    createBooking (Store.mk [Booking.mk 0 "g" "u" 0 2] 1) (BookingRequest.mk "g" "v" 10 1) =
      (CreateResult.rejected "The same guest cannot be in multiple units at the same time",
        Store.mk [Booking.mk 0 "g" "u" 0 2] 1) :=
  ⟨by decide,
    create_multi_unit_guest_rejected (Store.mk [Booking.mk 0 "g" "u" 0 2] 1)
      (BookingRequest.mk "g" "v" 10 1) (Booking.mk 0 "g" "u" 0 2) (by decide) rfl
      (by decide)⟩

/-- C7: when no stored booking matches both the guest and the unit of the
extension request, `extendBooking` answers the no-active-booking rejection
and leaves the store unchanged, whatever else the store holds. -/
theorem extend_no_active_booking_rejected (s : Store) (req : ExtendRequest)
    (h : ∀ b ∈ s.bookings, ¬(b.guestName = req.guestName ∧ b.unitID = req.unitID)) :
    extendBooking s req = (ExtendResult.rejected "No active bookings found for this guest", s) := by
  have hfind : s.bookings.find? (fun b =>
      b.guestName == req.guestName && b.unitID == req.unitID) = none := by
    rw [List.find?_eq_none]
    intro b hb
    simp only [Bool.and_eq_true, beq_iff_eq]
    exact h b hb
  simp [extendBooking, hfind]

theorem extend_no_active_booking_rejected_witness :
    (∀ b ∈ (Store.mk [Booking.mk 0 "h" "u" 0 2] 1).bookings,
        ¬(b.guestName = "g" ∧ b.unitID = "u")) ∧
    extendBooking (Store.mk [Booking.mk 0 "h" "u" 0 2] 1) (ExtendRequest.mk "g" "u" 1) =
      (ExtendResult.rejected "No active bookings found for this guest",
        Store.mk [Booking.mk 0 "h" "u" 0 2] 1) :=
  ⟨by decide,
    extend_no_active_booking_rejected (Store.mk [Booking.mk 0 "h" "u" 0 2] 1)
      (ExtendRequest.mk "g" "u" 1) (by decide)⟩

/-- C6: when the guest does have an active booking `r` on the unit (nights
and additional nights at least 1, every booking on the unit with at least 1
night), `extendBooking` answers the extend-not-possible rejection exactly
when some booking on the unit other than `r` overlaps the candidate
interval that runs from `r`'s current checkout for the additional nights;
`r`'s own presence in the comparison set never triggers the rejection. -/
theorem extend_reject_iff_other_overlap (s : Store) (req : ExtendRequest) (r : Booking)
    (hfind : s.bookings.find? (fun b =>
        b.guestName == req.guestName && b.unitID == req.unitID) = some r)
    (hr : 1 ≤ r.numberOfNights) (ha : 1 ≤ req.numberOfNights)
    (hall : ∀ b ∈ getAllBookingsOnUnit s req.unitID, 1 ≤ b.numberOfNights) :
    ((extendBooking s req).fst =
        ExtendResult.rejected
          "extend booking is not possible, this unit is already reserved by other customer"
      ↔ ∃ b ∈ getAllBookingsOnUnit s req.unitID, b ≠ r ∧
          b.checkInDate < getCheckoutDate r.checkInDate r.numberOfNights + req.numberOfNights ∧
          getCheckoutDate r.checkInDate r.numberOfNights <
            b.checkInDate + b.numberOfNights) := by
  cases hav : isDateRangeAvailable s (getCheckoutDate r.checkInDate r.numberOfNights)
      req.numberOfNights req.unitID with
  | false =>
    have hfst : (extendBooking s req).fst =
        ExtendResult.rejected
          "extend booking is not possible, this unit is already reserved by other customer" := by
      simp [extendBooking, hfind, hav]
    rw [hfst]
    simp only [true_iff]
    obtain ⟨b, hbmem, hbov⟩ := (isDateRangeAvailable_false_iff _ _ _ _).mp hav
    have hb1 := hall b hbmem
    rw [overlapsExisting_true_iff _ _ _ ha hb1] at hbov
    refine ⟨b, hbmem, ?_, hbov.2, hbov.1⟩
    intro hbr
    rw [hbr] at hbov
    simp only [getCheckoutDate] at hbov
    omega
  | true =>
    have hfst : (extendBooking s req).fst =
        ExtendResult.updated
          { r with numberOfNights := r.numberOfNights + req.numberOfNights } := by
      simp [extendBooking, hfind, hav]
    rw [hfst]
    constructor
    · intro hcontra
      exact absurd hcontra (by simp)
    · rintro ⟨b, hbmem, hbne, h1, h2⟩
      have hfalse := (isDateRangeAvailable_true_iff _ _ _ _).mp hav b hbmem
      rw [overlapsExisting_false_iff _ _ _ ha (hall b hbmem)] at hfalse
      exact absurd ⟨h2, h1⟩ hfalse

theorem extend_reject_iff_other_overlap_witness :
    (Store.mk [Booking.mk 0 "g" "u" 0 5, Booking.mk 1 "h" "u" 5 2] 2).bookings.find?
        (fun b => b.guestName == "g" && b.unitID == "u") = some (Booking.mk 0 "g" "u" 0 5) ∧
    (1 : Int) ≤ (Booking.mk 0 "g" "u" 0 5).numberOfNights ∧ (1 : Int) ≤ 3 ∧
    (∀ b ∈ getAllBookingsOnUnit
        (Store.mk [Booking.mk 0 "g" "u" 0 5, Booking.mk 1 "h" "u" 5 2] 2) "u",
      1 ≤ b.numberOfNights) ∧
    ((extendBooking (Store.mk [Booking.mk 0 "g" "u" 0 5, Booking.mk 1 "h" "u" 5 2] 2)
          (ExtendRequest.mk "g" "u" 3)).fst =
        ExtendResult.rejected
          "extend booking is not possible, this unit is already reserved by other customer"
      ↔ ∃ b ∈ getAllBookingsOnUnit
            (Store.mk [Booking.mk 0 "g" "u" 0 5, Booking.mk 1 "h" "u" 5 2] 2) "u",
          b ≠ Booking.mk 0 "g" "u" 0 5 ∧
          b.checkInDate <
            getCheckoutDate (Booking.mk 0 "g" "u" 0 5).checkInDate
              (Booking.mk 0 "g" "u" 0 5).numberOfNights + 3 ∧
          getCheckoutDate (Booking.mk 0 "g" "u" 0 5).checkInDate
              (Booking.mk 0 "g" "u" 0 5).numberOfNights <
            b.checkInDate + b.numberOfNights) :=
  ⟨rfl, by decide, by decide, by decide,
    extend_reject_iff_other_overlap
      (Store.mk [Booking.mk 0 "g" "u" 0 5, Booking.mk 1 "h" "u" 5 2] 2)
      (ExtendRequest.mk "g" "u" 3) (Booking.mk 0 "g" "u" 0 5) rfl (by decide) (by decide)
      (by decide)⟩

lemma nodup_ids_split (l₁ l₂ : List Booking) (r : Booking)
    (h : ((l₁ ++ r :: l₂).map Booking.id).Nodup) :
    (∀ a ∈ l₁, a.id ≠ r.id) ∧ (∀ a ∈ l₂, a.id ≠ r.id) := by
  rw [List.map_append, List.nodup_append] at h
  obtain ⟨h1, h2, hdisj⟩ := h
  rw [List.map_cons, List.nodup_cons] at h2
  constructor
  · intro a ha heq
    exact hdisj (List.mem_map_of_mem _ ha) (by simp [heq])
  · intro a ha heq
    exact h2.1 (heq ▸ List.mem_map_of_mem _ ha)

/-- With all identifiers of the surrounding rows different from the target,
the Prisma update touches exactly the target row. -/
lemma updateNights_decomp (l₁ l₂ : List Booking) (r : Booking) (add : Int)
    (h₁ : ∀ a ∈ l₁, a.id ≠ r.id) (h₂ : ∀ a ∈ l₂, a.id ≠ r.id) :
    updateNights (l₁ ++ r :: l₂) r.id add =
      l₁ ++ { r with numberOfNights := r.numberOfNights + add } :: l₂ := by
  unfold updateNights
  rw [List.map_append, List.map_cons]
  congr 1
  · conv_rhs => rw [← List.map_id l₁]
    apply List.map_congr_left
    intro a ha
    simp [h₁ a ha]
  · congr 1
    · simp
    · conv_rhs => rw [← List.map_id l₂]
      apply List.map_congr_left
      intro a ha
      simp [h₂ a ha]

/-- C8: a successful extension changes the store only at the matched row:
the booking list splits as a prefix, the matched booking, and a suffix, and
afterwards it is the same prefix, the same booking with `numberOfNights`
increased by exactly the additional nights (its id, guest, unit and
check-in untouched), and the same suffix; `nextId` is unchanged. -/
theorem extend_frame_effect (s : Store) (req : ExtendRequest) (u : Booking)
    (hnodup : (s.bookings.map Booking.id).Nodup)
    (hsucc : (extendBooking s req).fst = ExtendResult.updated u) :
    ∃ r l₁ l₂,
      s.bookings = l₁ ++ r :: l₂ ∧
      u = { r with numberOfNights := r.numberOfNights + req.numberOfNights } ∧
      (extendBooking s req).snd.bookings = l₁ ++ u :: l₂ ∧
      (extendBooking s req).snd.nextId = s.nextId := by
  cases hfind : s.bookings.find? (fun b =>
      b.guestName == req.guestName && b.unitID == req.unitID) with
  | none =>
    rw [show (extendBooking s req).fst =
        ExtendResult.rejected "No active bookings found for this guest" by
      simp [extendBooking, hfind]] at hsucc
    exact absurd hsucc (by simp)
  | some r =>
    cases hav : isDateRangeAvailable s (getCheckoutDate r.checkInDate r.numberOfNights)
        req.numberOfNights req.unitID with
    | false =>
      rw [show (extendBooking s req).fst =
          ExtendResult.rejected
            "extend booking is not possible, this unit is already reserved by other customer" by
        simp [extendBooking, hfind, hav]] at hsucc
      exact absurd hsucc (by simp)
    | true =>
      have hu : u = { r with numberOfNights := r.numberOfNights + req.numberOfNights } := by
        rw [show (extendBooking s req).fst = ExtendResult.updated
            { r with numberOfNights := r.numberOfNights + req.numberOfNights } by
          simp [extendBooking, hfind, hav]] at hsucc
        exact (ExtendResult.updated.injEq _ _ ▸ hsucc).symm
      have hsnd : (extendBooking s req).snd =
          ⟨updateNights s.bookings r.id req.numberOfNights, s.nextId⟩ := by
        simp [extendBooking, hfind, hav]
      obtain ⟨l₁, l₂, hdecomp⟩ := List.append_of_mem (List.mem_of_find?_eq_some hfind)
      obtain ⟨hid₁, hid₂⟩ := nodup_ids_split l₁ l₂ r (hdecomp ▸ hnodup)
      refine ⟨r, l₁, l₂, hdecomp, hu, ?_, by rw [hsnd]⟩
      rw [hsnd, hu]
      simp only
      rw [hdecomp, updateNights_decomp l₁ l₂ r req.numberOfNights hid₁ hid₂]

theorem extend_frame_effect_witness :
    ((Store.mk [Booking.mk 0 "g" "u" 0 2] 1).bookings.map Booking.id).Nodup ∧
    (extendBooking (Store.mk [Booking.mk 0 "g" "u" 0 2] 1)
        (ExtendRequest.mk "g" "u" 3)).fst = ExtendResult.updated (Booking.mk 0 "g" "u" 0 5) ∧
    (∃ r l₁ l₂,
      (Store.mk [Booking.mk 0 "g" "u" 0 2] 1).bookings = l₁ ++ r :: l₂ ∧
      Booking.mk 0 "g" "u" 0 5 = { r with numberOfNights := r.numberOfNights + 3 } ∧
      (extendBooking (Store.mk [Booking.mk 0 "g" "u" 0 2] 1)
          (ExtendRequest.mk "g" "u" 3)).snd.bookings = l₁ ++ Booking.mk 0 "g" "u" 0 5 :: l₂ ∧
      (extendBooking (Store.mk [Booking.mk 0 "g" "u" 0 2] 1)
          (ExtendRequest.mk "g" "u" 3)).snd.nextId =
        (Store.mk [Booking.mk 0 "g" "u" 0 2] 1).nextId) :=
  ⟨by decide, by decide,
    extend_frame_effect (Store.mk [Booking.mk 0 "g" "u" 0 2] 1) (ExtendRequest.mk "g" "u" 3)
      (Booking.mk 0 "g" "u" 0 5) (by decide) (by decide)⟩

/-- What a true outcome of `isBookingPossible` guarantees: the guest is
absent from the store, and no booking on the unit conflicts with the
candidate interval. -/
lemma isBookingPossible_true_spec (s : Store) (req : BookingRequest)
    (h : (isBookingPossible s req).result = true) :
    (∀ b ∈ s.bookings, b.guestName ≠ req.guestName) ∧
    (∀ b ∈ getAllBookingsOnUnit s req.unitID,
      overlapsExisting req.checkInDate
        (getCheckoutDate req.checkInDate req.numberOfNights) b = false) := by
  simp only [isBookingPossible, gt_iff_lt] at h
  split at h
  · simp at h
  · split at h
    · simp at h
    · next h2 =>
      have hguest : ∀ b ∈ s.bookings, b.guestName ≠ req.guestName := by
        intro b hb heq
        exact h2 (List.length_pos_of_mem (List.mem_filter.mpr ⟨hb, by simp [heq]⟩))
      refine ⟨hguest, ?_⟩
      split at h
      · split at h
        · simp at h
        · next h4 =>
          simp only [Bool.not_eq_true', Bool.not_eq_false] at h4
          exact (isDateRangeAvailable_true_iff s req.checkInDate req.numberOfNights
            req.unitID).mp h4
      · next h3 =>
        intro b hb
        exact absurd (List.length_pos_of_mem hb) h3

lemma compat_bump_left (x r : Booking) (add : Int)
    (hx : 1 ≤ x.numberOfNights) (hr1 : 1 ≤ r.numberOfNights) (ha : 1 ≤ add)
    (hcomp : BookingCompat x r)
    (havl : x.unitID = r.unitID →
      ¬(r.checkInDate + r.numberOfNights < x.checkInDate + x.numberOfNights ∧
        x.checkInDate < r.checkInDate + r.numberOfNights + add)) :
    BookingCompat x { r with numberOfNights := r.numberOfNights + add } := by
  obtain ⟨hid, hg, hov⟩ := hcomp
  refine ⟨hid, hg, ?_⟩
  intro huni
  have h1 := hov huni
  have h2 := havl huni
  unfold bookingOverlap at h1 ⊢
  simp only at h1 h2 ⊢
  omega

lemma compat_bump_right (r y : Booking) (add : Int)
    (hy : 1 ≤ y.numberOfNights) (hr1 : 1 ≤ r.numberOfNights) (ha : 1 ≤ add)
    (hcomp : BookingCompat r y)
    (havl : y.unitID = r.unitID →
      ¬(r.checkInDate + r.numberOfNights < y.checkInDate + y.numberOfNights ∧
        y.checkInDate < r.checkInDate + r.numberOfNights + add)) :
    BookingCompat { r with numberOfNights := r.numberOfNights + add } y := by
  obtain ⟨hid, hg, hov⟩ := hcomp
  refine ⟨hid, hg, ?_⟩
  intro huni
  simp only at huni
  have h1 := hov huni
  have h2 := havl huni.symm
  unfold bookingOverlap at h1 ⊢
  simp only at h1 h2 ⊢
  omega

/-- `createBooking` preserves the store invariant when the requested nights
count is at least 1. -/
lemma inv_create (s : Store) (req : BookingRequest) (hs : Inv s)
    (hn : 1 ≤ req.numberOfNights) : Inv (createBooking s req).snd := by
  cases hres : (isBookingPossible s req).result with
  | false =>
    rw [show (createBooking s req).snd = s by simp [createBooking, hres]]
    exact hs
  | true =>
    obtain ⟨hguest, havail⟩ := isBookingPossible_true_spec s req hres
    rw [show (createBooking s req).snd =
        ⟨s.bookings ++
          [⟨s.nextId, req.guestName, req.unitID, req.checkInDate, req.numberOfNights⟩],
         s.nextId + 1⟩ by simp [createBooking, hres]]
    constructor
    · intro b hb
      rcases List.mem_append.mp hb with hb | hb
      · exact hs.nightsPos b hb
      · rw [List.mem_singleton.mp hb]
        exact hn
    · intro b hb
      rcases List.mem_append.mp hb with hb | hb
      · exact Nat.lt_succ_of_lt (hs.idLt b hb)
      · rw [List.mem_singleton.mp hb]
        exact Nat.lt_succ_self _
    · rw [List.pairwise_append]
      refine ⟨hs.compat, List.pairwise_singleton _ _, ?_⟩
      intro a ha b hb
      rw [List.mem_singleton.mp hb]
      refine ⟨Nat.ne_of_lt (hs.idLt a ha), hguest a ha, ?_⟩
      intro huni hov
      have hamem : a ∈ getAllBookingsOnUnit s req.unitID :=
        (mem_getAllBookingsOnUnit s req.unitID a).mpr ⟨ha, huni⟩
      have hfalse := havail a hamem
      rw [overlapsExisting_false_iff _ _ _ hn (hs.nightsPos a ha)] at hfalse
      exact hfalse ⟨hov.2, hov.1⟩

/-- `extendBooking` preserves the store invariant when the additional
nights count is at least 1. -/
lemma inv_extend (s : Store) (req : ExtendRequest) (hs : Inv s)
    (hn : 1 ≤ req.numberOfNights) : Inv (extendBooking s req).snd := by
  cases hfind : s.bookings.find? (fun b =>
      b.guestName == req.guestName && b.unitID == req.unitID) with
  | none =>
    rw [show (extendBooking s req).snd = s by simp [extendBooking, hfind]]
    exact hs
  | some r =>
    cases hav : isDateRangeAvailable s (getCheckoutDate r.checkInDate r.numberOfNights)
        req.numberOfNights req.unitID with
    | false =>
      rw [show (extendBooking s req).snd = s by simp [extendBooking, hfind, hav]]
      exact hs
    | true =>
      rw [show (extendBooking s req).snd =
          ⟨updateNights s.bookings r.id req.numberOfNights, s.nextId⟩ by
        simp [extendBooking, hfind, hav]]
      have hrmem := List.mem_of_find?_eq_some hfind
      have hrp := List.find?_some hfind
      simp only [Bool.and_eq_true, beq_iff_eq] at hrp
      have hru : r.unitID = req.unitID := hrp.2
      have hr1 : 1 ≤ r.numberOfNights := hs.nightsPos r hrmem
      obtain ⟨l₁, l₂, hdecomp⟩ := List.append_of_mem hrmem
      have hsub : ∀ a : Booking, a ∈ l₁ ∨ a ∈ l₂ → a ∈ s.bookings := by
        intro a haor
        rw [hdecomp]
        rcases haor with h | h
        · exact List.mem_append_left _ h
        · exact List.mem_append_right _ (List.mem_cons_of_mem _ h)
      have hpair := hs.compat
      rw [hdecomp, List.pairwise_append, List.pairwise_cons] at hpair
      obtain ⟨hp₁, ⟨hrl₂, hp₂⟩, hcross⟩ := hpair
      have hid₁ : ∀ a ∈ l₁, a.id ≠ r.id := fun a ha =>
        (hcross a ha r (List.mem_cons_self r l₂)).1
      have hid₂ : ∀ a ∈ l₂, a.id ≠ r.id := fun a ha => (Ne.symm (hrl₂ a ha).1)
      -- the conflict-free fact for every booking on the unit
      have havl : ∀ a ∈ s.bookings, a.unitID = r.unitID →
          ¬(r.checkInDate + r.numberOfNights < a.checkInDate + a.numberOfNights ∧
            a.checkInDate < r.checkInDate + r.numberOfNights + req.numberOfNights) := by
        intro a ha huni
        have hamem : a ∈ getAllBookingsOnUnit s req.unitID :=
          (mem_getAllBookingsOnUnit s req.unitID a).mpr ⟨ha, huni.trans hru⟩
        have hfalse := (isDateRangeAvailable_true_iff s
          (getCheckoutDate r.checkInDate r.numberOfNights) req.numberOfNights
          req.unitID).mp hav a hamem
        rw [overlapsExisting_false_iff _ _ _ hn (hs.nightsPos a ha)] at hfalse
        simpa only [getCheckoutDate] using hfalse
      rw [hdecomp, updateNights_decomp l₁ l₂ r req.numberOfNights hid₁ hid₂]
      constructor
      · intro b hb
        rcases List.mem_append.mp hb with hb | hb
        · exact hs.nightsPos b (hsub b (Or.inl hb))
        · rcases List.mem_cons.mp hb with hb | hb
          · rw [hb]
            simp only
            omega
          · exact hs.nightsPos b (hsub b (Or.inr hb))
      · intro b hb
        rcases List.mem_append.mp hb with hb | hb
        · exact hs.idLt b (hsub b (Or.inl hb))
        · rcases List.mem_cons.mp hb with hb | hb
          · rw [hb]
            exact hs.idLt r hrmem
          · exact hs.idLt b (hsub b (Or.inr hb))
      · rw [List.pairwise_append, List.pairwise_cons]
        refine ⟨hp₁, ⟨?_, hp₂⟩, ?_⟩
        · intro b hb
          exact compat_bump_right r b req.numberOfNights
            (hs.nightsPos b (hsub b (Or.inr hb))) hr1 hn (hrl₂ b hb)
            (havl b (hsub b (Or.inr hb)))
        · intro a ha b hb
          rcases List.mem_cons.mp hb with hb | hb
          · rw [hb]
            exact compat_bump_left a r req.numberOfNights
              (hs.nightsPos a (hsub a (Or.inl ha))) hr1 hn
              (hcross a ha r (List.mem_cons_self r l₂))
              (havl a (hsub a (Or.inl ha)))
          · exact hcross a ha b (List.mem_cons_of_mem r hb)

lemma inv_applyReq (s : Store) (q : Req) (hs : Inv s) (hq : reqNightsOk q = true) :
    Inv (applyReq s q) := by
  cases q with
  | create r =>
    exact inv_create s r hs (by simpa [reqNightsOk] using hq)
  | extend r =>
    exact inv_extend s r hs (by simpa [reqNightsOk] using hq)

lemma inv_foldl (reqs : List Req) (s : Store) (hs : Inv s)
    (h : ∀ q ∈ reqs, reqNightsOk q = true) : Inv (reqs.foldl applyReq s) := by
  induction reqs generalizing s with
  | nil => exact hs
  | cons q qs ih =>
    exact ih (applyReq s q) (inv_applyReq s q hs (h q (List.mem_cons_self q qs)))
      (fun p hp => h p (List.mem_cons_of_mem q hp))

lemma inv_empty : Inv emptyStore :=
  ⟨by simp [emptyStore], by simp [emptyStore], by simp [emptyStore]⟩

/-- C2: starting from the empty store, any sequence of create and extend
requests with nights counts at least 1 leaves a store in which no two rows
on the same unit have overlapping half-open intervals, and no two rows
share a guest (every guest holds at most one reservation across all
units). -/
theorem store_invariants_preserved (reqs : List Req)
    (h : ∀ q ∈ reqs, reqNightsOk q = true) :
    (reqs.foldl applyReq emptyStore).bookings.Pairwise
        (fun a b => a.unitID = b.unitID → ¬bookingOverlap a b) ∧
    (reqs.foldl applyReq emptyStore).bookings.Pairwise
        (fun a b => a.guestName ≠ b.guestName) := by
  have hinv := inv_foldl reqs emptyStore inv_empty h
  exact ⟨List.Pairwise.imp (fun hc => hc.2.2) hinv.compat,
    List.Pairwise.imp (fun hc => hc.2.1) hinv.compat⟩

theorem store_invariants_preserved_witness :
    (∀ q ∈ [Req.create (BookingRequest.mk "g" "u" 0 2), Req.extend (ExtendRequest.mk "g" "u" 3)],
      reqNightsOk q = true) ∧
    (([Req.create (BookingRequest.mk "g" "u" 0 2),
        Req.extend (ExtendRequest.mk "g" "u" 3)].foldl applyReq emptyStore).bookings.Pairwise
        (fun a b => a.unitID = b.unitID → ¬bookingOverlap a b) ∧
     ([Req.create (BookingRequest.mk "g" "u" 0 2),
        Req.extend (ExtendRequest.mk "g" "u" 3)].foldl applyReq emptyStore).bookings.Pairwise
        (fun a b => a.guestName ≠ b.guestName)) :=
  ⟨by decide,
    store_invariants_preserved
      [Req.create (BookingRequest.mk "g" "u" 0 2), Req.extend (ExtendRequest.mk "g" "u" 3)]
      (by decide)⟩

end BookingsTs
